import Mathlib

/-!
Verification development for the PostgreSQL dialect adapter of a
dialect-abstracting relational database client (`PostgreSQLClient`).
The JavaScript source is embedded shallowly: object fields become
structure fields, JS `null`/`undefined` become `Option`, JS truthiness
is modelled explicitly, promise rejection becomes `Except`, and the
outbound driver primitive ("run this SQL text, return rows/fields or an
error") is an oracle parameter.
-/

/-- JS truthiness of a nullable string: `null`/`undefined` and `''` are falsy. -/
def jsTruthy : Option String → Bool
  | none => false
  | some s => s ≠ ""

/-- JS falsiness of a nullable string (the `!paramObj.table` guard). -/
def jsFalsy (o : Option String) : Bool := !(jsTruthy o)

/-- JS truthiness of a nullable number: `null`/`undefined` and `0` are falsy. -/
def jsTruthyNat : Option Nat → Bool
  | none => false
  | some n => n ≠ 0

/-- JS `a || b` on nullable numbers: `a` when truthy, else `b`. -/
def jsOrNat (a b : Option Nat) : Option Nat :=
  if jsTruthyNat a then a else b

/-- JS string interpolation of a nullable string: `null` renders as `"null"`. -/
def jsStr : Option String → String
  | none => "null"
  | some s => s

/-- JS `toUpperCase` on the ASCII range, as a character-list map. -/
def strToUpper (s : String) : String := String.mk (s.data.map Char.toUpper)

/-- JS `toLowerCase` on the ASCII range, as a character-list map. -/
def strToLower (s : String) : String := String.mk (s.data.map Char.toLower)

/- ===================== Query Builder (getSQL) ===================== -/

/-- The builder's accumulated state `this._query`: ordered lists for select
columns, from/schema target, where predicates, group-by, order-by, limit,
update assignments, insert rows, and a delete flag.  Source field `from`
is named `fromTable` (`from` is a Lean keyword) and `where` is named
`whereClauses`. Insert rows are ordered key/value pair lists. -/
structure QueryDescriptor where
  select : List String := []
  fromTable : Option String := none
  schema : Option String := none
  whereClauses : List String := []
  groupBy : List String := []
  orderBy : List String := []
  limit : List String := []
  update : List String := []
  insert : List (List (String × String)) := []
  delete : Bool := false
deriving DecidableEq, Repr

/-- Modelled from the spec: `AntaresCore._reducer` (the shared base class is
not part of the visible sources) accumulates caller-supplied literal clause
fragments in order; on lists of ready fragments it is the identity
accumulation. -/
def reduceFragments (xs : List String) : List String := xs

/-- The LIMIT fragment of `getSQL` (source line 1221): emitted only when the
reduced select list and the limit list are both non-empty. -/
def getSQLLimitRaw (q : QueryDescriptor) : String :=
  if ¬(reduceFragments q.select).isEmpty ∧ ¬q.limit.isEmpty then
    "LIMIT " ++ String.intercalate ", " q.limit ++ " "
  else ""

/-- `getSQL` (source lines 1176-1224): renders the accumulated
`QueryDescriptor` to SQL text by concatenating clause fragments in a fixed
order. The inner `selectArray.length ? ... : 'SELECT * '` ternary of the
source is kept (its else branch is dead under the outer guard). -/
def getSQL (q : QueryDescriptor) : String :=
  let selectArray := reduceFragments q.select
  let selectRaw :=
    if ¬selectArray.isEmpty then
      (if ¬selectArray.isEmpty then "SELECT " ++ String.intercalate ", " selectArray ++ " "
       else "SELECT * ")
    else ""
  let fromKw :=
    if q.update.isEmpty ∧ q.insert.isEmpty ∧ jsTruthy q.fromTable then "FROM"
    else if ¬q.insert.isEmpty then "INTO"
    else ""
  let fromRaw :=
    fromKw ++
      (if jsTruthy q.fromTable then
        " " ++ (if jsTruthy q.schema then (q.schema.getD "") ++ "." else "") ++
          q.fromTable.getD "" ++ " "
       else "")
  let whereArray := reduceFragments q.whereClauses
  let whereRaw :=
    if ¬whereArray.isEmpty then "WHERE " ++ String.intercalate " AND " whereArray ++ " " else ""
  let updateArray := reduceFragments q.update
  let updateRaw :=
    if ¬updateArray.isEmpty then "SET " ++ String.intercalate ", " updateArray ++ " " else ""
  let insertRaw :=
    if ¬q.insert.isEmpty then
      let fieldsList := (q.insert.headD []).map (fun kv => "\"" ++ kv.1 ++ "\"")
      let rowsList := q.insert.map (fun row => "(" ++ String.intercalate ", " (row.map (fun kv => kv.2)) ++ ")")
      "(" ++ String.intercalate ", " fieldsList ++ ") VALUES " ++ String.intercalate ", " rowsList ++ " "
    else ""
  let groupByArray := reduceFragments q.groupBy
  let groupByRaw :=
    if ¬groupByArray.isEmpty then "GROUP BY " ++ String.intercalate ", " groupByArray ++ " " else ""
  let orderByArray := reduceFragments q.orderBy
  let orderByRaw :=
    if ¬orderByArray.isEmpty then "ORDER BY " ++ String.intercalate ", " orderByArray ++ " " else ""
  let limitRaw := getSQLLimitRaw q
  selectRaw ++ (if updateRaw ≠ "" then "UPDATE" else "") ++
    (if insertRaw ≠ "" then "INSERT " else "") ++
    (if q.delete then "DELETE " else "") ++
    fromRaw ++ updateRaw ++ whereRaw ++ groupByRaw ++ orderByRaw ++ limitRaw ++ insertRaw

/-- Collapse whitespace: map every whitespace character to a space and fuse
adjacent spaces (helper for `squishWS`). -/
def dedupSpaces : List Char → List Char
  | [] => []
  | c :: cs =>
    let c' := if c.isWhitespace then ' ' else c
    match dedupSpaces cs with
    | [] => [c']
    | d :: ds => if c' = ' ' ∧ d = ' ' then d :: ds else c' :: d :: ds

/-- Whitespace normalization used to compare rendered SQL texts: collapse
runs of whitespace to single spaces and trim the ends. -/
def squishWS (s : String) : String :=
  let l := dedupSpaces s.data
  let l := l.dropWhile (fun c => c = ' ')
  let l := (l.reverse.dropWhile (fun c => c = ' ')).reverse
  String.mk l

/-- The concrete descriptor of the round-trip scenario: select `{a,b}`,
from `t`, where `id = 1`, limit `10`. -/
def qRoundTrip : QueryDescriptor :=
  { select := ["a", "b"], fromTable := some "t", whereClauses := ["id = 1"], limit := ["10"] }

/- ============ Schema Introspector: array type remapping ============ -/

/-- JS `String.prototype.replace` with a string pattern replaces only the
first occurrence; helper on character lists. -/
def listReplaceFirst (pat repl : List Char) : List Char → List Char
  | [] => if pat = [] then repl else []
  | c :: cs =>
    if pat.isPrefixOf (c :: cs) then repl ++ (c :: cs).drop pat.length
    else c :: listReplaceFirst pat repl cs

/-- JS `s.replace(pat, repl)` for a string pattern: first occurrence only. -/
def stringReplaceFirst (s pat repl : String) : String :=
  String.mk (listReplaceFirst pat.data repl.data s.data)

/-- JS `String.prototype.includes` on character lists. -/
def listHasInfix (pat : List Char) : List Char → Bool
  | [] => decide (pat = [])
  | c :: cs => pat.isPrefixOf (c :: cs) || listHasInfix pat cs

/-- The static `this._arrayTypes` table from the constructor (source lines
27-35), in insertion order. -/
def arrayTypes : List (String × String) :=
  [("_int2", "SMALLINT"), ("_int4", "INTEGER"), ("_int8", "BIGINT"),
   ("_float4", "REAL"), ("_float8", "DOUBLE PRECISION"),
   ("_char", "\"CHAR\""), ("_varchar", "CHARACTER VARYING")]

/-- `Object.keys(this._arrayTypes).includes(type)` plus the table access. -/
def lookupArrayType (t : String) : Option String :=
  (arrayTypes.find? (fun p => p.1 = t)).map (fun p => p.2)

/-- `_getArrayType` (source lines 44-48): a mapped array element type takes
its table entry; an unmapped one has its first `'_'` removed
(`type.replace('_', '')`). -/
def getArrayType (t : String) : String :=
  match lookupArrayType t with
  | some v => v
  | none => stringReplaceFirst t "_" ""

/-- One row of the `information_schema.columns` query issued by
`getTableColumns`; only the columns the mapping reads are carried. -/
structure InformationSchemaColumnRow where
  column_name : String := ""
  data_type : String := ""
  udt_name : String := ""
  table_schema : String := ""
  table_name : String := ""
  numeric_precision : Option Nat := none
  datetime_precision : Option Nat := none
  character_maximum_length : Option Nat := none
  is_nullable : String := "NO"
  column_default : Option String := none
  character_set_name : Option String := none
  collation_name : Option String := none
  ordinal_position : Nat := 0
deriving DecidableEq, Repr

/-- The normalized column descriptor produced by `getTableColumns`. -/
structure ColumnDesc where
  name : String
  key : Option String
  type : String
  isArray : Bool
  schema : String
  table : String
  numPrecision : Option Nat
  datePrecision : Option Nat
  charLength : Option Nat
  nullable : Bool
  unsigned : Option Bool
  zerofill : Option Bool
  order : Nat
  default : Option String
  charset : Option String
  collation : Option String
  autoIncrement : Bool
  onUpdate : Option String
  comment : String
deriving DecidableEq, Repr

/-- The per-row mapping of `getTableColumns` (source lines 237-264):
`ARRAY` columns are flagged and, when `arrayRemap` is on, their type is
recomputed from `udt_name`; the result is upper-cased. -/
def remapColumn (arrayRemap : Bool) (field : InformationSchemaColumnRow) : ColumnDesc :=
  let type0 := field.data_type
  let isArray := type0 == "ARRAY"
  let type1 := if isArray && arrayRemap then getArrayType field.udt_name else type0
  { name := field.column_name
    key := none
    type := strToUpper type1
    isArray := isArray
    schema := field.table_schema
    table := field.table_name
    numPrecision := field.numeric_precision
    datePrecision := field.datetime_precision
    charLength := field.character_maximum_length
    nullable := listHasInfix "YES".data field.is_nullable.data
    unsigned := none
    zerofill := none
    order := field.ordinal_position
    default := field.column_default
    charset := field.character_set_name
    collation := field.collation_name
    autoIncrement := false
    onUpdate := none
    comment := "" }

/- ===================== DDL Synthesizer (alterTable) ===================== -/

/-- A column addition entry of a SchemaDiff. -/
structure ColumnAddition where
  name : String
  type : String
  numLength : Option Nat := none
  charLength : Option Nat := none
  datePrecision : Option Nat := none
  isArray : Bool := false
  unsigned : Bool := false
  zerofill : Bool := false
  nullable : Bool := false
  autoIncrement : Bool := false
  default : Option String := none
  comment : Option String := none
  collation : Option String := none
  onUpdate : Option String := none
deriving DecidableEq, Repr

/-- A column change entry of a SchemaDiff. -/
structure ColumnChange where
  orgName : String
  name : String
  type : String
  numLength : Option Nat := none
  charLength : Option Nat := none
  datePrecision : Option Nat := none
  isArray : Bool := false
  nullable : Bool := false
  default : Option String := none
deriving DecidableEq, Repr

/-- A column deletion entry of a SchemaDiff. -/
structure ColumnDeletion where
  name : String
deriving DecidableEq, Repr

/-- An index addition entry. -/
structure IndexAddition where
  name : String
  fields : List String
  type : String
deriving DecidableEq, Repr

/-- An index change entry. -/
structure IndexChange where
  oldName : String
  oldType : String
  name : String
  type : String
  fields : List String
deriving DecidableEq, Repr

/-- An index deletion entry. -/
structure IndexDeletion where
  name : String
  type : String
deriving DecidableEq, Repr

/-- The `indexChanges` bag of a SchemaDiff. -/
structure IndexChangesSet where
  additions : List IndexAddition := []
  changes : List IndexChange := []
  deletions : List IndexDeletion := []
deriving DecidableEq, Repr

/-- A foreign-key addition entry. -/
structure ForeignKeyAddition where
  constraintName : String
  field : String
  refTable : String
  refField : String
  onUpdate : String
  onDelete : String
deriving DecidableEq, Repr

/-- A foreign-key change entry. -/
structure ForeignKeyChange where
  oldName : String
  constraintName : String
  field : String
  refTable : String
  refField : String
  onUpdate : String
  onDelete : String
deriving DecidableEq, Repr

/-- A foreign-key deletion entry. -/
structure ForeignKeyDeletion where
  constraintName : String
deriving DecidableEq, Repr

/-- The `foreignChanges` bag of a SchemaDiff. -/
structure ForeignChangesSet where
  additions : List ForeignKeyAddition := []
  changes : List ForeignKeyChange := []
  deletions : List ForeignKeyDeletion := []
deriving DecidableEq, Repr

/-- The table-options bag: a key models the JS `'key' in options` presence
check via `Option`; `autoIncrement` is numerically cast in the source. -/
structure TableOptions where
  comment : Option String := none
  engine : Option String := none
  autoIncrement : Option Nat := none
  collation : Option String := none
  name : Option String := none
deriving DecidableEq, Repr

/-- The SchemaDiff parameter object of `alterTable`. -/
structure AlterTableParams where
  table : String
  additions : List ColumnAddition := []
  deletions : List ColumnDeletion := []
  changes : List ColumnChange := []
  indexChanges : IndexChangesSet := {}
  foreignChanges : ForeignChangesSet := {}
  options : TableOptions := {}
deriving DecidableEq, Repr

/-- Render a length suffix `(${length})` for a truthy length value. -/
def renderLen (l : Option Nat) : String :=
  if jsTruthyNat l then "(" ++ toString (l.getD 0) ++ ")" else ""

/-- `typeInfo.length ? numLength || charLength || datePrecision : false`:
the length value rendered for a column, `none` when the type carries no
length or all candidates are falsy. -/
def pickLength (hasLen : Bool) (a b c : Option Nat) : Option Nat :=
  if hasLen then jsOrNat a (jsOrNat b c) else none

/-- The serial pseudo-types that additionally create a sequence. -/
def serialTypes : List String := ["SERIAL", "SMALLSERIAL", "BIGSERIAL"]

/-- The concrete type name used for a change: serial pseudo-types map to
their base integer type, others are lower-cased (source lines 1068-1080). -/
def changeLocalType (c : ColumnChange) : String :=
  match c.type with
  | "SERIAL" => "integer"
  | "SMALLSERIAL" => "smallint"
  | "BIGSERIAL" => "bigint"
  | _ => strToLower c.type

/-- The shared `ALTER COLUMN "<orgName>"` head of every change sub-clause. -/
def alterColHead (c : ColumnChange) : String :=
  "ALTER COLUMN \"" ++ c.orgName ++ "\""

/-- The type-change sub-clause with its `USING` cast (source line 1082). -/
def changeTypeClause (hasLength : String → Bool) (c : ColumnChange) : String :=
  let localType := changeLocalType c
  let length := pickLength (hasLength c.type) c.numLength c.charLength c.datePrecision
  alterColHead c ++ " TYPE " ++ localType ++ renderLen length ++
    (if c.isArray then "[]" else "") ++ " USING \"" ++ c.orgName ++ "\"::" ++ localType

/-- The nullability sub-clause (source line 1083). -/
def changeNullClause (c : ColumnChange) : String :=
  alterColHead c ++ " " ++ (if c.nullable then "DROP NOT NULL" else "SET NOT NULL")

/-- The default sub-clause (source line 1084). -/
def changeDefaultClause (c : ColumnChange) : String :=
  alterColHead c ++ " " ++
    (if jsTruthy c.default then "SET DEFAULT " ++ c.default.getD "" else "DROP DEFAULT")

/-- The sequence name for a serial change: spaces replaced (first occurrence
only, JS `replace(' ', '_')`) by underscores (source line 1086). -/
def sequenceName (table : String) (c : ColumnChange) : String :=
  stringReplaceFirst (table ++ "_" ++ c.name ++ "_seq") " " "_"

/-- The extra default sub-clause pushed for serial changes (source line 1088). -/
def changeNextvalClause (table : String) (c : ColumnChange) : String :=
  alterColHead c ++ " SET DEFAULT nextval('" ++ sequenceName table c ++ "')"

/-- The `alterColumns` entries pushed for one column change (source lines
1082-1089): type, nullability, default, and for serial types a fourth
`SET DEFAULT nextval` sub-clause. -/
def changeClauses (table : String) (hasLength : String → Bool) (c : ColumnChange) : List String :=
  [changeTypeClause hasLength c, changeNullClause c, changeDefaultClause c] ++
    (if c.type ∈ serialTypes then [changeNextvalClause table c] else [])

/-- The `CREATE SEQUENCE` statements pushed for one column change (source
line 1087). -/
def changeSequenceStmts (table : String) (c : ColumnChange) : List String :=
  if c.type ∈ serialTypes then
    ["CREATE SEQUENCE IF NOT EXISTS " ++ sequenceName table c ++
      " OWNED BY \"" ++ table ++ "\".\"" ++ c.orgName ++ "\""]
  else []

/-- The standalone rename statements pushed for one column change (source
lines 1091-1092). -/
def changeRenameStmts (schema : Option String) (table : String) (c : ColumnChange) : List String :=
  if c.orgName ≠ c.name then
    ["ALTER TABLE \"" ++ jsStr schema ++ "\".\"" ++ table ++ "\" RENAME COLUMN \"" ++
      c.orgName ++ "\" TO \"" ++ c.name ++ "\""]
  else []

/-- The `ADD COLUMN` clause for one addition (source lines 1028-1042); the
template literal's embedded newlines and indentation are reproduced. -/
def addColumnClause (hasLength : String → Bool) (a : ColumnAddition) : String :=
  let length := pickLength (hasLength a.type) a.numLength a.charLength a.datePrecision
  "ADD COLUMN " ++ a.name ++ " \n            " ++
    strToUpper a.type ++ renderLen length ++ (if a.isArray then "[]" else "") ++
    "\n            " ++ (if a.unsigned then "UNSIGNED" else "") ++ " \n            " ++
    (if a.zerofill then "ZEROFILL" else "") ++ "\n            " ++
    (if a.nullable then "NULL" else "NOT NULL") ++ "\n            " ++
    (if a.autoIncrement then "AUTO_INCREMENT" else "") ++ "\n            " ++
    (if jsTruthy a.default then "DEFAULT " ++ a.default.getD "" else "") ++ "\n            " ++
    (if jsTruthy a.comment then "COMMENT '" ++ a.comment.getD "" ++ "'" else "") ++ "\n            " ++
    (if jsTruthy a.collation then "COLLATE " ++ a.collation.getD "" else "") ++ "\n            " ++
    (if jsTruthy a.onUpdate then "ON UPDATE " ++ a.onUpdate.getD "" else "")

/-- `addition.fields.map(field => `${field}`).join(',')`. -/
def joinIndexFields (fields : List String) : String :=
  String.intercalate "," fields

/-- A standalone `CREATE INDEX` statement (source lines 1054, 1112). -/
def createIndexStmt (table name : String) (fields : List String) : String :=
  "CREATE INDEX " ++ name ++ " ON " ++ table ++ "(" ++ joinIndexFields fields ++ ")"

/-- The `alterColumns` clause produced by an index addition: only PRIMARY
and UNIQUE additions go into the combined ALTER clause (lines 1045-1055). -/
def idxAdditionAlter (i : IndexAddition) : Option String :=
  if i.type = "PRIMARY" then some ("ADD PRIMARY KEY (" ++ joinIndexFields i.fields ++ ")")
  else if i.type = "UNIQUE" then
    some ("ADD CONSTRAINT " ++ i.name ++ " UNIQUE (" ++ joinIndexFields i.fields ++ ")")
  else none

/-- The `manageIndexes` statement produced by an index addition: every
non-PRIMARY non-UNIQUE addition becomes a `CREATE INDEX` statement. -/
def idxAdditionManage (table : String) (i : IndexAddition) : Option String :=
  if i.type = "PRIMARY" ∨ i.type = "UNIQUE" then none
  else some (createIndexStmt table i.name i.fields)

/-- The `alterColumns` clauses produced by one index change (lines 1096-1113):
the drop of the old definition, then the add of the new one. -/
def idxChangeAlter (c : IndexChange) : List String :=
  (if c.oldType = "PRIMARY" then ["DROP PRIMARY KEY"]
   else if c.oldType = "UNIQUE" then ["DROP CONSTRAINT " ++ c.oldName]
   else []) ++
  (if c.type = "PRIMARY" then ["ADD PRIMARY KEY (" ++ joinIndexFields c.fields ++ ")"]
   else if c.type = "UNIQUE" then
     ["ADD CONSTRAINT " ++ c.name ++ " UNIQUE (" ++ joinIndexFields c.fields ++ ")"]
   else [])

/-- The `manageIndexes` statements produced by one index change. -/
def idxChangeManage (table : String) (c : IndexChange) : List String :=
  (if c.oldType = "PRIMARY" ∨ c.oldType = "UNIQUE" then [] else ["DROP INDEX " ++ c.oldName]) ++
  (if c.type = "PRIMARY" ∨ c.type = "UNIQUE" then [] else [createIndexStmt table c.name c.fields])

/-- The `ADD CONSTRAINT ... FOREIGN KEY` clause (source line 1059). -/
def fkAddClause (f : ForeignKeyAddition) : String :=
  "ADD CONSTRAINT " ++ f.constraintName ++ " FOREIGN KEY (" ++ f.field ++ ") REFERENCES " ++
    f.refTable ++ " (" ++ f.refField ++ ") ON UPDATE " ++ f.onUpdate ++ " ON DELETE " ++ f.onDelete

/-- The clauses produced by one foreign-key change (lines 1116-1119). -/
def fkChangeClauses (c : ForeignKeyChange) : List String :=
  ["DROP CONSTRAINT " ++ c.oldName,
   "ADD CONSTRAINT " ++ c.constraintName ++ " FOREIGN KEY (" ++ c.field ++ ") REFERENCES " ++
     c.refTable ++ " (" ++ c.refField ++ ") ON UPDATE " ++ c.onUpdate ++ " ON DELETE " ++ c.onDelete]

/-- The `alterColumns` clause produced by an index deletion (lines 1127-1132). -/
def idxDeletionAlter (d : IndexDeletion) : Option String :=
  if d.type ∈ (["PRIMARY", "UNIQUE"] : List String) then some ("DROP CONSTRAINT " ++ d.name)
  else none

/-- The `manageIndexes` statement produced by an index deletion. -/
def idxDeletionManage (d : IndexDeletion) : Option String :=
  if d.type ∈ (["PRIMARY", "UNIQUE"] : List String) then none
  else some ("DROP INDEX " ++ d.name)

/-- The option clauses pushed first into `alterColumns` (lines 1022-1025);
each guarded by the JS `in` presence check. -/
def optionClauses (o : TableOptions) : List String :=
  (match o.comment with | some cm => ["COMMENT='" ++ cm ++ "'"] | none => []) ++
  (match o.engine with | some e => ["ENGINE=" ++ e] | none => []) ++
  (match o.autoIncrement with | some n => ["AUTO_INCREMENT=" ++ toString n] | none => []) ++
  (match o.collation with | some cl => ["COLLATE='" ++ cl ++ "'"] | none => [])

/-- The four statement accumulators of `alterTable` after all loops ran. -/
structure AlterParts where
  alterColumns : List String
  renameColumns : List String
  createSequences : List String
  manageIndexes : List String
deriving DecidableEq, Repr

/-- `alterTable`'s accumulation phase (source lines 1015-1137): each loop's
pushes appear in source order per accumulator. -/
def alterTableParts (hasLength : String → Bool) (schema : Option String)
    (p : AlterTableParams) : AlterParts :=
  { alterColumns :=
      optionClauses p.options ++
      p.additions.map (addColumnClause hasLength) ++
      p.indexChanges.additions.filterMap idxAdditionAlter ++
      p.foreignChanges.additions.map fkAddClause ++
      (p.changes.map (changeClauses p.table hasLength)).flatten ++
      (p.indexChanges.changes.map idxChangeAlter).flatten ++
      (p.foreignChanges.changes.map fkChangeClauses).flatten ++
      p.deletions.map (fun d => "DROP COLUMN " ++ d.name) ++
      p.indexChanges.deletions.filterMap idxDeletionAlter ++
      p.foreignChanges.deletions.map (fun d => "DROP CONSTRAINT " ++ d.constraintName)
    renameColumns := (p.changes.map (changeRenameStmts schema p.table)).flatten
    createSequences := (p.changes.map (changeSequenceStmts p.table)).flatten
    manageIndexes :=
      p.indexChanges.additions.filterMap (idxAdditionManage p.table) ++
      (p.indexChanges.changes.map (idxChangeManage p.table)).flatten ++
      p.indexChanges.deletions.filterMap idxDeletionManage }

/-- `alterTable`'s assembly phase (source lines 1139-1145): the ALTER clause
first, renames appended, sequences prepended, index statements prepended
before those, and the table rename appended last. -/
def assembleAlterSQL (schema : Option String) (p : AlterTableParams)
    (parts : AlterParts) : String :=
  let s1 :=
    if parts.alterColumns.isEmpty then ""
    else
      "ALTER TABLE \"" ++ jsStr schema ++ "\".\"" ++ p.table ++ "\" " ++
        String.intercalate ", " parts.alterColumns ++ "; "
  let s2 := if parts.renameColumns.isEmpty then s1
            else s1 ++ String.intercalate ";" parts.renameColumns ++ "; "
  let s3 := if parts.createSequences.isEmpty then s2
            else String.intercalate ";" parts.createSequences ++ "; " ++ s2
  let s4 := if parts.manageIndexes.isEmpty then s3
            else String.intercalate ";" parts.manageIndexes ++ "; " ++ s3
  if jsTruthy p.options.name then
    s4 ++ "ALTER TABLE \"" ++ jsStr schema ++ "\".\"" ++ p.table ++ "\" RENAME TO \"" ++
      p.options.name.getD "" ++ "\"; "
  else s4

/-- The full SQL text `alterTable` builds and hands to `raw`. -/
def alterTableSQL (hasLength : String → Bool) (schema : Option String)
    (p : AlterTableParams) : String :=
  assembleAlterSQL schema p (alterTableParts hasLength schema p)

/-- Modelled from the spec's words (refinement target for C1): the SQL text
as the spec orders it — sequence creates, then the combined ALTER clause,
then index creates — built from the same accumulated parts with the same
separators the source uses. -/
def specClaimedAlterOrderSQL (hasLength : String → Bool) (schema : Option String)
    (p : AlterTableParams) : String :=
  let parts := alterTableParts hasLength schema p
  (if parts.createSequences.isEmpty then ""
   else String.intercalate ";" parts.createSequences ++ "; ") ++
  (if parts.alterColumns.isEmpty then ""
   else
     "ALTER TABLE \"" ++ jsStr schema ++ "\".\"" ++ p.table ++ "\" " ++
       String.intercalate ", " parts.alterColumns ++ "; ") ++
  (if parts.manageIndexes.isEmpty then ""
   else String.intercalate ";" parts.manageIndexes ++ "; ")

/-- A trivial type catalog stand-in: no type carries a length (the missing
`common/data-types/postgresql` module is consulted only for this flag). -/
def hasLenNone : String → Bool := fun _ => false

/-- Concrete additions-only diff with one column addition and one
non-unique index addition. -/
def exAdditionsOnly : AlterTableParams :=
  { table := "t"
    additions := [{ name := "c", type := "integer" }]
    indexChanges := { additions := [{ name := "ix", fields := ["c"], type := "INDEX" }] } }

/-- Concrete SERIAL column change. -/
def exSerialChange : ColumnChange :=
  { orgName := "id", name := "id", type := "SERIAL" }

/-- Concrete non-serial column change. -/
def exIntegerChange : ColumnChange :=
  { orgName := "a", name := "a", type := "INTEGER" }

/- ============ Connection Manager & Raw Executor ============ -/

/-- A live driver handle; `destroy` calls `end()` on it. -/
structure Conn where
  ended : Bool
deriving DecidableEq, Repr

/-- The mutable client context: the connection handle (absent before
`connect`) and the current default schema (`this._schema`, `null` in the
constructor). -/
structure ClientState where
  _connection : Option Conn := none
  _schema : Option String := none
deriving DecidableEq, Repr

/-- `destroy` (source lines 68-70): ends the live handle; the field itself
is not cleared. -/
def destroy (st : ClientState) : ClientState :=
  { st with _connection := st._connection.map (fun _ => { ended := true }) }

/-- Errors surfaced by the execution path.  `notConnected` is the
torn-down-context failure: the JS runtime raises a TypeError when `.query`
is read off a missing handle, and the driver rejects with "Client was
closed and is not queryable" on an ended one; both are an operation
attempted on a context that is not connected.  `typeError` covers the
other JS property accesses on `undefined`; `statement` is a driver
rejection of the SQL text. -/
inductive Err where
  | notConnected
  | typeError
  | statement (msg : String)
deriving DecidableEq, Repr

/-- A driver result row: pg returns keyed objects normally and positional
arrays in `rowMode: 'array'` (nest mode). -/
inductive Row where
  | obj (pairs : List (String × String))
  | arr (vals : List String)
deriving DecidableEq, Repr

/-- `Array.isArray` on a row. -/
def Row.isArrayRow : Row → Bool
  | .obj _ => false
  | .arr _ => true

/-- Read a property off an object row (`row.name` etc.), `none` when absent. -/
def Row.get : Row → String → Option String
  | .obj ps, k => (ps.find? (fun kv => kv.1 = k)).map (fun kv => kv.2)
  | .arr _, _ => none

/-- One driver field descriptor as pg returns it. -/
structure DriverField where
  name : String
  tableID : Nat
  dataTypeID : Nat
  format : String
deriving DecidableEq, Repr

/-- One driver response (`res`), plus the wall-clock `timeStop - timeStart`
measured around the call, supplied by the environment. -/
structure DriverRes where
  rows : Option (List Row) := none
  fields : Option (List DriverField) := none
  duration : Nat := 0
deriving DecidableEq, Repr

/-- The first element of a parsed statement's from list (`ast.from[0]`);
`schema` models the `'schema' in ast.from[0]` presence check, `asName` the
`as` alias. -/
structure FromItem where
  schema : Option String := none
  name : Option String := none
  asName : Option String := none
deriving DecidableEq, Repr

/-- The parsed statement AST, reduced to what `raw` reads: `fromFirst` is
`ast.from[0]` when `ast.from` is present. -/
structure Ast where
  fromFirst : Option FromItem := none
deriving DecidableEq, Repr

/-- A reverse table lookup entry (a `getTableByIDs` result value). -/
structure TableRef where
  table : String
  schema : String
deriving DecidableEq, Repr

/-- One `keys` entry as produced by `getKeyUsage` (source lines 364-378). -/
structure KeyUsage where
  schema : String := ""
  table : String := ""
  field : String := ""
  position : Option Nat := none
  constraintPosition : Option Nat := none
  constraintName : String := ""
  refSchema : String := ""
  refTable : String := ""
  refField : String := ""
  onUpdate : String := ""
  onDelete : String := ""
deriving DecidableEq, Repr

/-- A normalized index descriptor as produced by `getTableIndexes` (source
lines 294-304); the row accesses may miss, hence `Option`. -/
structure IndexDesc where
  name : Option String := none
  column : Option String := none
  indexType : Option String := none
  type : Option String := none
  cardinality : Option Nat := none
  comment : String := ""
  indexComment : String := ""
deriving DecidableEq, Repr

/-- A remapped result field (a `remappedFields` entry, source lines
1308-1318; named `ResultField` because `Field` is taken by the algebra
library, and `alias` by a Lean command, hence `aliasName`).  `length`, `key` and `col` are the attributes merged in by
`details` enrichment: `col` carries the spread-in column descriptor of
`{...field, ...detailedField}`, whose headline keys (name, key, type,
schema, table) are also written through. -/
structure ResultField where
  name : String
  aliasName : String
  schema : Option String
  table : Option String
  tableAlias : Option String
  orgTable : Option String
  type : String
  tableID : Nat
  dataTypeID : Nat
  format : String
  length : Option Nat := none
  key : Option String := none
  col : Option ColumnDesc := none
deriving DecidableEq, Repr

/-- One per-statement result.  Every field mirrors one key of the object
literal the source resolves (lines 1371-1377); `keys` is an `Option` so
that the presence of the JS key can be stated — the literal always
includes it, hence the embedding always produces `some`.  `rows` is `none`
where the source stores `false` (the driver result was not an array), and
`report` records that a non-array command result was returned. -/
structure QueryResult where
  rows : Option (List Row)
  report : Bool
  fields : List ResultField
  keys : Option (List KeyUsage)
  duration : Nat
deriving DecidableEq, Repr

/-- `raw`'s return shape: the single result when exactly one statement ran,
else the ordered sequence. -/
inductive RawReturn where
  | single (r : QueryResult)
  | many (rs : List QueryResult)
deriving DecidableEq, Repr

/-- `raw`'s options object with its defaults (source lines 1236-1241). -/
structure RawArgs where
  nest : Bool := false
  details : Bool := false
  split : Bool := true
deriving DecidableEq, Repr

/-- The environment `raw` runs against: the outbound driver primitive
(with its measured duration), the best-effort statement parser (`parse`
with failures swallowed, hence `Option`), the reverse table-id lookup
standing for `getTableByIDs` (itself a catalog query, source lines
312-328), the constructor-built `this.types` map, and the three catalog
lookups the `details` enrichment awaits — `getTableColumns(paramObj,
false)`, `getTableIndexes(paramObj)` and `getKeyUsage(paramObj)`, which
are recursive catalog queries on the same client.  The `paramObj`
`{table, schema}` pair is embedded as `(schema, table)`. -/
structure Oracle where
  exec : String → Except String DriverRes
  parseAst : String → Option Ast
  tableByID : Nat → Option TableRef
  typesMap : Nat → Option String
  lookupColumns : Option String × Option String → Except Err (List ColumnDesc)
  lookupIndexes : Option String × Option String → Except Err (List IndexDesc)
  lookupKeys : Option String × Option String → Except Err (List KeyUsage)

deriving instance DecidableEq for Except

/-- JS `sql.split(';')` on character lists (structural, so that concrete
executions evaluate). -/
def splitSemiAux : List Char → List Char → List String
  | [], acc => [String.mk acc.reverse]
  | c :: cs, acc =>
    if c = ';' then String.mk acc.reverse :: splitSemiAux cs []
    else splitSemiAux cs (c :: acc)

/-- JS `sql.split(';')`. -/
def splitOnSemicolon (s : String) : List String :=
  splitSemiAux s.data []

/-- The nest-mode key/value rebuild (source lines 1284-1290): positional
values are keyed `"<table>.<column>"` via `fields[i]`; a missing
`fields[i]` is a JS property access on `undefined`. -/
def nestPairs (tablesInfo : Nat → Option TableRef) :
    List DriverField → List String → Except Err (List (String × String))
  | _, [] => .ok []
  | [], _ :: _ => .error .typeError
  | f :: fs, v :: vs =>
    let table :=
      match tablesInfo f.tableID with
      | some tr => tr.table
      | none => ""
    match nestPairs tablesInfo fs vs with
    | .error e => .error e
    | .ok rest => .ok (((if table ≠ "" then table ++ "." else "") ++ f.name, v) :: rest)

/-- Rebuild one nest-mode row; a non-array row has no `reduce` in JS. -/
def nestRow (tablesInfo : Nat → Option TableRef) (fields : List DriverField) :
    Row → Except Err Row
  | .obj _ => .error .typeError
  | .arr vs => (nestPairs tablesInfo fields vs).map Row.obj

/-- The field remap of `raw` (source lines 1295-1319): schema and table are
resolved from the parsed AST, falling back to the current default schema
(table unknown), or in nest mode from the reverse table-id lookup. -/
def remapField (st : ClientState) (args : RawArgs) (ast : Option Ast)
    (o : Oracle) (field : DriverField) : ResultField :=
  let fromFirst : Option FromItem := ast.bind (fun a => a.fromFirst)
  let schema0 : Option String :=
    match fromFirst with
    | some fi => if fi.schema.isSome then fi.schema else st._schema
    | none => st._schema
  let table0 : Option String := fromFirst.bind (fun fi => fi.name)
  let schemaTable :=
    if args.nest then
      match o.tableByID field.tableID with
      | some tr => (some tr.schema, some tr.table)
      | none => (st._schema, none)
    else (schema0, table0)
  { name := field.name
    aliasName := field.name
    schema := schemaTable.1
    table := schemaTable.2
    tableAlias := fromFirst.bind (fun fi => fi.asName)
    orgTable := fromFirst.bind (fun fi => fi.name)
    type := (o.typesMap field.dataTypeID).getD field.format
    tableID := field.tableID
    dataTypeID := field.dataTypeID
    format := field.format }

/-- The distinct `(schema, table)` pair list of the `details` enrichment
(first-occurrence filter, source line 1329). -/
def dedupPairs (l : List (Option String × Option String)) :
    List (Option String × Option String) :=
  l.foldl (fun acc p => if p ∈ acc then acc else acc ++ [p]) []

/-- `d.numPrecision || d.charLength || d.datePrecision || null`. -/
def jsOr3OrNull (a b c : Option Nat) : Option Nat :=
  if jsTruthyNat a then a
  else if jsTruthyNat b then b
  else if jsTruthyNat c then c
  else none

/-- The per-pair field merge of the `details` enrichment (source lines
1338-1354): fields of the looked-up pair take the found column descriptor
(spread in, with its length) and the pri/uni/mul marker of a matching
index. -/
def mergeFields (pair : Option String × Option String) (columns : List ColumnDesc)
    (indexes : List IndexDesc) (fs : List ResultField) : List ResultField :=
  fs.map (fun field =>
    let detailedField := columns.find? (fun f => f.name = field.name)
    let fieldIndex := indexes.find? (fun i => i.column = some field.name)
    if field.table = pair.2 ∧ field.schema = pair.1 then
      let f1 :=
        match detailedField with
        | some d =>
          { field with
            name := d.name
            key := d.key
            type := d.type
            schema := some d.schema
            table := some d.table
            length := jsOr3OrNull d.numPrecision d.charLength d.datePrecision
            col := some d }
        | none => field
      match fieldIndex with
      | some i =>
        { f1 with
          key := some (if i.type = some "PRIMARY" then "pri"
                       else if i.type = some "UNIQUE" then "uni" else "mul") }
      | none => f1
    else field)

/-- The `details` enrichment loop (source lines 1331-1367): a pair whose
table or schema is falsy is skipped; a resolved pair awaits the three
catalog lookups, merges column/index attributes into the fields and
accumulates key usage; a lookup failure rejects the statement promise. -/
def enrichLoop (o : Oracle) :
    List (Option String × Option String) → List ResultField → List KeyUsage →
    Except Err (List ResultField × List KeyUsage)
  | [], fs, ks => .ok (fs, ks)
  | pair :: rest, fs, ks =>
    if jsFalsy pair.2 || jsFalsy pair.1 then enrichLoop o rest fs ks
    else
      match o.lookupColumns pair with
      | .error e => .error e
      | .ok columns =>
        match o.lookupIndexes pair with
        | .error e => .error e
        | .ok indexes =>
          let fs' := mergeFields pair columns indexes fs
          match o.lookupKeys pair with
          | .error e => .error e
          | .ok response => enrichLoop o rest fs' (ks ++ response)

/-- The `details` enrichment entry point: distinct pairs of the remapped
fields, then the loop. -/
def enrichDetails (o : Oracle) (remappedFields : List ResultField) :
    Except Err (List ResultField × List KeyUsage) :=
  enrichLoop o (dedupPairs (remappedFields.map (fun f => (f.schema, f.table))))
    remappedFields []

/-- The result object literal (source lines 1371-1377): `rows` collapses to
the empty list when any row is itself array-shaped. -/
def mkQueryResult (duration : Nat) (queryResult : Option (List Row))
    (fields : List ResultField) (keysArr : List KeyUsage) : QueryResult :=
  { rows :=
      match queryResult with
      | some rs => if rs.any Row.isArrayRow then some [] else some rs
      | none => none
    report := queryResult.isNone
    fields := fields
    keys := some keysArr
    duration := duration }

/-- One statement's execution and shaping (the loop body of `raw`, source
lines 1252-1383).  The connection access comes first: a missing or ended
handle is the torn-down-context failure. -/
def executeQuery (o : Oracle) (st : ClientState) (args : RawArgs) (query : String) :
    Except Err QueryResult :=
  match st._connection with
  | none => .error .notConnected
  | some c =>
    if c.ended then .error .notConnected
    else
      match o.exec query with
      | .error e => .error (.statement e)
      | .ok res =>
        let ast := o.parseAst query
        let fields := res.fields.getD []
        let queryResultE : Except Err (Option (List Row)) :=
          if args.nest then
            match res.rows with
            | none => .error .typeError
            | some rs => (rs.mapM (nestRow o.tableByID fields)).map (fun l => some l)
          else .ok res.rows
        match queryResultE with
        | .error e => .error e
        | .ok queryResult =>
          let remappedFields := fields.map (remapField st args ast o)
          if args.details && !remappedFields.isEmpty then
            match enrichDetails o remappedFields with
            | .error e => .error e
            | .ok x => .ok (mkQueryResult res.duration queryResult x.1 x.2)
          else .ok (mkQueryResult res.duration queryResult remappedFields [])

/-- The statement loop of `raw`: falsy (empty) statements are skipped
(`if (!query) continue`), the rest executed strictly in order. -/
def execQueries (o : Oracle) (st : ClientState) (args : RawArgs) :
    List String → Except Err (List QueryResult)
  | [] => .ok []
  | q :: rest =>
    if q = "" then execQueries o st args rest
    else
      match executeQuery o st args q with
      | .error e => .error e
      | .ok r =>
        match execQueries o st args rest with
        | .error e => .error e
        | .ok rs => .ok (r :: rs)

/-- `raw` (source lines 1235-1386): applies the option defaults, splits the
text on `';'` when `split` is on, runs every non-empty statement in order
and returns the single result when exactly one statement ran, else the
sequence.  (The nest-mode pre-step re-issues `use(this._schema)`, which
rewrites `_schema` to itself and fires a discarded `SET search_path`
statement — no observable state change.) -/
def raw (o : Oracle) (st : ClientState) (sql : String) (args : RawArgs) :
    Except Err RawReturn :=
  let queries := if args.split then splitOnSemicolon sql else [sql]
  match execQueries o st args queries with
  | .error e => .error e
  | .ok resultsArr =>
    match resultsArr with
    | [r] => .ok (.single r)
    | rs => .ok (.many rs)

/-- `alterTable` (source line 1147): the built statement batch is handed to
`raw` in one call. -/
def alterTable (o : Oracle) (hasLength : String → Bool) (st : ClientState)
    (p : AlterTableParams) : Except Err RawReturn :=
  raw o st (alterTableSQL hasLength st._schema p) {}

/-- A normalized server variable (`getVariables` entry). -/
structure VariableDesc where
  name : Option String
  value : Option String
deriving DecidableEq, Repr

/-- `getVariables` (source lines 917-927): `SHOW ALL` through `raw`; the
rows of the single result are mapped to name/value pairs (`.rows` read off
an array return would be `undefined` in JS). -/
def getVariables (o : Oracle) (st : ClientState) : Except Err (List VariableDesc) :=
  match raw o st "SHOW ALL" {} with
  | .error e => .error e
  | .ok (.single r) =>
    match r.rows with
    | some rows =>
      .ok (rows.map (fun row => { name := row.get "name", value := row.get "setting" }))
    | none => .error .typeError
  | .ok (.many _) => .error .typeError

/-- `use` (source lines 78-81): sets the default schema on the context and
issues a `SET search_path` statement through `raw`. -/
def use (o : Oracle) (st : ClientState) (schema : String) :
    ClientState × Except Err RawReturn :=
  let st' := { st with _schema := some schema }
  (st', raw o st' ("SET search_path TO " ++ schema) {})

/-- The catalog SQL of `getTableIndexes` (source lines 279-292); it
contains no `';'`, so splitting leaves it as one statement. -/
def indexQuerySQL (table : String) : String :=
  "WITH ndx_list AS (\n         SELECT pg_index.indexrelid, pg_class.oid\n" ++
  "         FROM pg_index, pg_class\n         WHERE pg_class.relname = '" ++ table ++
  "' AND pg_class.oid = pg_index.indrelid), ndx_cols AS (\n" ++
  "         SELECT pg_class.relname, UNNEST(i.indkey) AS col_ndx, " ++
  "CASE i.indisprimary WHEN TRUE THEN 'PRIMARY' ELSE CASE i.indisunique " ++
  "WHEN TRUE THEN 'UNIQUE' ELSE 'INDEX' END END AS CONSTRAINT_TYPE, pg_class.oid\n" ++
  "         FROM pg_class\n         JOIN pg_index i ON (pg_class.oid = i.indexrelid)\n" ++
  "         JOIN ndx_list ON (pg_class.oid = ndx_list.indexrelid)\n" ++
  "         WHERE pg_table_is_visible(pg_class.oid))\n" ++
  "         SELECT ndx_cols.relname AS CONSTRAINT_NAME, ndx_cols.CONSTRAINT_TYPE, " ++
  "a.attname AS COLUMN_NAME\n         FROM pg_attribute a\n" ++
  "         JOIN ndx_cols ON (a.attnum = ndx_cols.col_ndx)\n" ++
  "         JOIN ndx_list ON (ndx_list.oid = a.attrelid AND ndx_list.indexrelid = ndx_cols.oid)\n      "

/-- `getTableIndexes` (source lines 275-305): for a non-`public` schema the
context's default schema is first switched via `use` — a durable side
effect the function never restores — then the catalog query runs on the
updated context and its rows are normalized. -/
def getTableIndexes (o : Oracle) (st : ClientState) (schema table : String) :
    ClientState × Except Err (List IndexDesc) :=
  let st' := if schema ≠ "public" then (use o st schema).1 else st
  let res :=
    match raw o st' (indexQuerySQL table) {} with
    | .error e => .error e
    | .ok (.single r) =>
      match r.rows with
      | some rows =>
        .ok (rows.map (fun row =>
          { name := row.get "constraint_name"
            column := row.get "column_name"
            indexType := none
            type := row.get "constraint_type"
            cardinality := none
            comment := ""
            indexComment := "" }))
      | none => .error .typeError
    | .ok (.many _) => .error .typeError
  (st', res)

/-- A connected context with the default `public` schema. -/
def stLive : ClientState :=
  { _connection := some { ended := false }, _schema := some "public" }

/-- A minimal environment: every statement succeeds with no rows and no
fields in 5 time units; nothing parses; every enrichment lookup fails. -/
def oSimple : Oracle :=
  { exec := fun _ => .ok { rows := some [], fields := some [], duration := 5 }
    parseAst := fun _ => none
    tableByID := fun _ => none
    typesMap := fun _ => none
    lookupColumns := fun _ => .error .typeError
    lookupIndexes := fun _ => .error .typeError
    lookupKeys := fun _ => .error .typeError }

/-- A computed-expression driver field (no owning table). -/
def dfExpr : DriverField :=
  { name := "expr", tableID := 0, dataTypeID := 0, format := "text" }

/-- A driver response with one computed-expression field. -/
def resOneField : DriverRes :=
  { rows := some [], fields := some [dfExpr], duration := 3 }

/-- An environment whose statements return one computed-expression field
and whose enrichment lookups all fail. -/
def oOneField : Oracle :=
  { exec := fun _ => .ok resOneField
    parseAst := fun _ => none
    tableByID := fun _ => none
    typesMap := fun _ => none
    lookupColumns := fun _ => .error .typeError
    lookupIndexes := fun _ => .error .typeError
    lookupKeys := fun _ => .error .typeError }

/-- The result `oSimple` yields for every statement. -/
def qrEmpty5 : QueryResult :=
  { rows := some [], report := false, fields := [], keys := some [], duration := 5 }

/- ===================== Theorems ===================== -/

/-- Helper: a `filterMap` whose function is total on the list is a `map`. -/
theorem filterMap_eq_map_of_forall {α β : Type} (f : α → Option β) (g : α → β)
    (l : List α) (h : ∀ a ∈ l, f a = some (g a)) : l.filterMap f = l.map g := by
  induction l with
  | nil => rfl
  | cons a as ih =>
    rw [List.filterMap_cons, h a (List.mem_cons_self a as), List.map_cons,
      ih (fun x hx => h x (List.mem_cons_of_mem a hx))]

/-- C4: building a QueryDescriptor with select list `{a, b}`, from target
`t`, where predicate `id = 1` and limit `10`, then rendering it with
`getSQL`, yields `SELECT a, b FROM t WHERE id = 1 LIMIT 10` up to
whitespace normalization. -/
theorem spec_C4_getSQL_roundtrip :
    squishWS (getSQL qRoundTrip) = "SELECT a, b FROM t WHERE id = 1 LIMIT 10" := by
  decide

/-- C5: a LIMIT clause is emitted only when the select list is non-empty and
a limit is set.  First conjunct: with an empty select list the configured
limit is ignored (the rendered text coincides with that of the same
descriptor with no limit).  Second conjunct: whenever `getSQL`'s LIMIT
fragment is non-empty, both the select list and the limit are non-empty. -/
theorem spec_C5_limit_requires_select :
    (∀ q : QueryDescriptor, q.select = [] → getSQL q = getSQL { q with limit := [] }) ∧
    (∀ q : QueryDescriptor, getSQLLimitRaw q ≠ "" → q.select ≠ [] ∧ q.limit ≠ []) := by
  constructor
  · intro q h
    simp [getSQL, getSQLLimitRaw, reduceFragments, h]
  · intro q h
    constructor
    · intro hs
      apply h
      simp [getSQLLimitRaw, reduceFragments, hs]
    · intro hl
      apply h
      simp [getSQLLimitRaw, reduceFragments, hl]

/-- C5 witness: evaluating the first conjunct on a bare-update descriptor
with a configured limit, and the second on the round-trip descriptor. -/
theorem spec_C5_limit_requires_select_witness :
    getSQL { fromTable := some "t", update := ["a = 1"], limit := ["10"] } =
      getSQL { fromTable := some "t", update := ["a = 1"], limit := ([] : List String) } ∧
    (qRoundTrip.select ≠ [] ∧ qRoundTrip.limit ≠ []) :=
  ⟨spec_C5_limit_requires_select.1 { fromTable := some "t", update := ["a = 1"], limit := ["10"] } rfl,
   spec_C5_limit_requires_select.2 qRoundTrip (by decide)⟩

/-- C1 counterexample: on a diff with only additions (one column addition,
one non-unique index addition), the SQL `alterTable` builds does not follow
the claimed order (sequence creates, then the ALTER clause, then index
creates): the `CREATE INDEX` statement is prepended before the ALTER clause. -/
theorem spec_C1_counterexample :
    alterTableSQL hasLenNone (some "public") exAdditionsOnly ≠
      specClaimedAlterOrderSQL hasLenNone (some "public") exAdditionsOnly := by
  decide

/-- C1 (amended): for every SchemaDiff containing only additions (non-empty
column additions, non-PRIMARY/non-UNIQUE index additions, foreign-key
additions; no changes, deletions, renames or option entries), the SQL text
`alterTable` builds consists of the `CREATE INDEX` statements followed by
the single combined ALTER TABLE clause list; no `CREATE SEQUENCE`, no
rename and no drop statement is produced: the accumulated sequence and
rename lists are empty, the combined clause list holds exactly the
`ADD COLUMN` and `ADD CONSTRAINT ... FOREIGN KEY` clauses of the additions,
and the standalone statements are exactly the `CREATE INDEX` statements of
the index additions. -/
theorem spec_C1_amended (hL : String → Bool) (sch : Option String) (p : AlterTableParams)
    (hc : p.changes = []) (hd : p.deletions = [])
    (hic : p.indexChanges.changes = []) (hid : p.indexChanges.deletions = [])
    (hfc : p.foreignChanges.changes = []) (hfd : p.foreignChanges.deletions = [])
    (ho : p.options = {})
    (hidx : ∀ i ∈ p.indexChanges.additions, i.type ≠ "PRIMARY" ∧ i.type ≠ "UNIQUE")
    (ha : p.additions ≠ []) :
    (alterTableParts hL sch p).createSequences = [] ∧
    (alterTableParts hL sch p).renameColumns = [] ∧
    (alterTableParts hL sch p).alterColumns =
      p.additions.map (addColumnClause hL) ++ p.foreignChanges.additions.map fkAddClause ∧
    (alterTableParts hL sch p).manageIndexes =
      p.indexChanges.additions.map (fun i => createIndexStmt p.table i.name i.fields) ∧
    alterTableSQL hL sch p =
      (if (alterTableParts hL sch p).manageIndexes.isEmpty then ""
       else String.intercalate ";" (alterTableParts hL sch p).manageIndexes ++ "; ") ++
      "ALTER TABLE \"" ++ jsStr sch ++ "\".\"" ++ p.table ++ "\" " ++
        String.intercalate ", " (alterTableParts hL sch p).alterColumns ++ "; " := by
  have hAlterFM : p.indexChanges.additions.filterMap idxAdditionAlter = [] := by
    apply List.filterMap_eq_nil_iff.mpr
    intro i hi
    simp [idxAdditionAlter, (hidx i hi).1, (hidx i hi).2]
  have hManageFM : p.indexChanges.additions.filterMap (idxAdditionManage p.table) =
      p.indexChanges.additions.map (fun i => createIndexStmt p.table i.name i.fields) := by
    apply filterMap_eq_map_of_forall
    intro i hi
    simp [idxAdditionManage, (hidx i hi).1, (hidx i hi).2]
  have hparts : alterTableParts hL sch p =
      { alterColumns :=
          p.additions.map (addColumnClause hL) ++ p.foreignChanges.additions.map fkAddClause
        renameColumns := []
        createSequences := []
        manageIndexes :=
          p.indexChanges.additions.map (fun i => createIndexStmt p.table i.name i.fields) } := by
    simp [alterTableParts, hc, hd, hic, hid, hfc, hfd, ho, hAlterFM, hManageFM, optionClauses]
  refine ⟨by rw [hparts], by rw [hparts], by rw [hparts], by rw [hparts], ?_⟩
  have hne : ¬ (p.additions.map (addColumnClause hL) ++
      p.foreignChanges.additions.map fkAddClause).isEmpty = true := by
    cases hadds : p.additions with
    | nil => exact absurd hadds ha
    | cons a as => simp [hadds]
  rw [alterTableSQL, hparts]
  simp only [assembleAlterSQL, ho, List.isEmpty_nil, if_true, hne, if_false, jsTruthy]
  cases hmi : (p.indexChanges.additions.map
      (fun i => createIndexStmt p.table i.name i.fields)).isEmpty
  · simp [hmi, String.append_assoc]
    congr 1
  · simp [hmi, String.append_assoc]

/-- C1 witness: the amended statement evaluated on the concrete
additions-only diff. -/
theorem spec_C1_amended_witness :
    alterTableSQL hasLenNone (some "public") exAdditionsOnly =
      (if (alterTableParts hasLenNone (some "public") exAdditionsOnly).manageIndexes.isEmpty
       then ""
       else String.intercalate ";"
         (alterTableParts hasLenNone (some "public") exAdditionsOnly).manageIndexes ++ "; ") ++
      "ALTER TABLE \"" ++ jsStr (some "public") ++ "\".\"" ++ exAdditionsOnly.table ++ "\" " ++
        String.intercalate ", "
          (alterTableParts hasLenNone (some "public") exAdditionsOnly).alterColumns ++ "; " :=
  (spec_C1_amended hasLenNone (some "public") exAdditionsOnly rfl rfl rfl rfl rfl rfl rfl
    (by decide) (by decide)).2.2.2.2

/-- C2 counterexample: a SERIAL column change does not render exactly three
`ALTER COLUMN` sub-clauses — a fourth `SET DEFAULT nextval` sub-clause is
pushed for it. -/
theorem spec_C2_counterexample :
    ¬ ((changeClauses "t" hasLenNone exSerialChange).countP
        (fun s => ("ALTER COLUMN".data.isPrefixOf s.data : Bool)) = 3) := by
  decide

/-- C2 (amended): for every column change, the rendered clause list contains
the type-change sub-clause (with its USING cast), the nullability sub-clause
and the default sub-clause, in that order; a change whose type is SERIAL,
SMALLSERIAL or BIGSERIAL additionally gets a fourth
`ALTER COLUMN ... SET DEFAULT nextval(...)` sub-clause after those three,
so the `ALTER COLUMN "<column>"` sub-clause count is three for non-serial
changes and four for serial ones. -/
theorem spec_C2_amended (tbl : String) (hL : String → Bool) (c : ColumnChange) :
    (c.type ∉ serialTypes →
      changeClauses tbl hL c =
        [changeTypeClause hL c, changeNullClause c, changeDefaultClause c]) ∧
    (c.type ∈ serialTypes →
      changeClauses tbl hL c =
        [changeTypeClause hL c, changeNullClause c, changeDefaultClause c,
         changeNextvalClause tbl c]) ∧
    (changeClauses tbl hL c).countP
        (fun s => ((alterColHead c).data.isPrefixOf s.data : Bool)) =
      (if c.type ∈ serialTypes then 4 else 3) := by
  have hpre : ∀ t : String, ((alterColHead c).data.isPrefixOf (alterColHead c ++ t).data) = true := by
    intro t
    rw [String.data_append]
    exact List.isPrefixOf_iff_prefix.mpr (List.prefix_append _ _)
  refine ⟨fun h => by simp [changeClauses, h], fun h => by simp [changeClauses, h], ?_⟩
  by_cases h : c.type ∈ serialTypes
  · simp only [changeClauses, h, if_true, List.countP_append, List.countP_cons, List.countP_nil]
    simp [changeTypeClause, changeNullClause, changeDefaultClause, changeNextvalClause,
      String.append_assoc, hpre]
  · simp only [changeClauses, h, if_false, List.countP_append, List.countP_cons, List.countP_nil]
    simp [changeTypeClause, changeNullClause, changeDefaultClause,
      String.append_assoc, hpre]

/-- C2 witness: the amended statement evaluated on a concrete non-serial
change and the concrete serial change. -/
theorem spec_C2_amended_witness :
    changeClauses "tt" hasLenNone exIntegerChange =
      [changeTypeClause hasLenNone exIntegerChange, changeNullClause exIntegerChange,
       changeDefaultClause exIntegerChange] ∧
    changeClauses "tt" hasLenNone exSerialChange =
      [changeTypeClause hasLenNone exSerialChange, changeNullClause exSerialChange,
       changeDefaultClause exSerialChange, changeNextvalClause "tt" exSerialChange] :=
  ⟨(spec_C2_amended "tt" hasLenNone exIntegerChange).1 (by decide),
   (spec_C2_amended "tt" hasLenNone exSerialChange).2.1 (by decide)⟩

/-- C6: for every introspected column whose `data_type` is `ARRAY` (with
array remapping enabled), the descriptor is flagged `isArray` and its type
is the upper-cased `_getArrayType` of `udt_name`; a `udt_name` present in
the static table maps to its table entry (all of which are fixed by
upper-casing, e.g. `_int4 ↦ INTEGER`), and an absent one maps to the name
with the leading `'_'` marker stripped, upper-cased (e.g. `_custom ↦
CUSTOM`). -/
theorem spec_C6_array_remap :
    (∀ row : InformationSchemaColumnRow, row.data_type = "ARRAY" →
      (remapColumn true row).isArray = true ∧
      (remapColumn true row).type = strToUpper (getArrayType row.udt_name)) ∧
    (∀ s v, lookupArrayType s = some v → getArrayType s = v) ∧
    (∀ p ∈ arrayTypes, strToUpper p.2 = p.2) ∧
    (∀ (s : String) (rest : List Char), s.data = '_' :: rest →
      lookupArrayType s = none → getArrayType s = String.mk rest) ∧
    getArrayType "_int4" = "INTEGER" ∧
    strToUpper (getArrayType "_custom") = "CUSTOM" := by
  refine ⟨?_, ?_, ?_, ?_, by decide, by decide⟩
  · intro row h
    constructor
    · simp [remapColumn, h]
    · simp [remapColumn, h]
  · intro s v h
    simp [getArrayType, h]
  · decide
  · intro s rest hdata hnone
    simp only [getArrayType, hnone]
    simp only [stringReplaceFirst, hdata]
    simp [listReplaceFirst, List.isPrefixOf]

/-- C6 witness: the general parts evaluated on a concrete `_int4` array row
and the prefix-stripping part on `_custom`. -/
theorem spec_C6_array_remap_witness :
    (remapColumn true { data_type := "ARRAY", udt_name := "_int4" }).isArray = true ∧
    (remapColumn true { data_type := "ARRAY", udt_name := "_int4" }).type =
      strToUpper (getArrayType "_int4") ∧
    getArrayType "_custom" = String.mk "custom".data :=
  ⟨(spec_C6_array_remap.1 { data_type := "ARRAY", udt_name := "_int4" } rfl).1,
   (spec_C6_array_remap.1 { data_type := "ARRAY", udt_name := "_int4" } rfl).2,
   spec_C6_array_remap.2.2.2.1 "_custom" "custom".data rfl (by decide)⟩

/-- Helper: an element of the deduplicated pair list came from the input. -/
theorem mem_of_mem_dedupPairs (l : List (Option String × Option String))
    (p : Option String × Option String) (hp : p ∈ dedupPairs l) : p ∈ l := by
  have key : ∀ (l : List (Option String × Option String)) acc,
      p ∈ l.foldl (fun acc q => if q ∈ acc then acc else acc ++ [q]) acc →
      p ∈ acc ∨ p ∈ l := by
    intro l
    induction l with
    | nil => intro acc h; exact Or.inl h
    | cons a as ih =>
      intro acc h
      simp only [List.foldl_cons] at h
      rcases ih _ h with h1 | h2
      · by_cases ha : a ∈ acc
        · rw [if_pos ha] at h1; exact Or.inl h1
        · rw [if_neg ha] at h1
          rcases List.mem_append.mp h1 with h3 | h4
          · exact Or.inl h3
          · simp at h4; subst h4; exact Or.inr (List.mem_cons_self _ _)
      · exact Or.inr (List.mem_cons_of_mem a h2)
  rcases key l [] (by simpa [dedupPairs] using hp) with h1 | h2
  · simp at h1
  · exact h2

/-- Helper: the enrichment loop is the identity on a pair list whose every
entry has a falsy table or schema, whatever the catalog lookups do. -/
theorem enrichLoop_skip (o : Oracle) (fs : List ResultField) (ks : List KeyUsage) :
    ∀ pairs : List (Option String × Option String),
      (∀ pr ∈ pairs, jsFalsy pr.2 = true ∨ jsFalsy pr.1 = true) →
      enrichLoop o pairs fs ks = .ok (fs, ks) := by
  intro pairs
  induction pairs with
  | nil => intro _; rfl
  | cons pr rest ih =>
    intro h
    have hcond : (jsFalsy pr.2 || jsFalsy pr.1) = true := by
      rcases h pr (List.mem_cons_self pr rest) with h1 | h1 <;> simp [h1]
    simp only [enrichLoop, hcond, if_true]
    exact ih (fun x hx => h x (List.mem_cons_of_mem pr hx))

/-- Helper: the first piece produced by the splitter extends the pending
accumulator. -/
theorem splitSemiAux_head :
    ∀ (l acc : List Char), ∃ t rest, splitSemiAux l acc = String.mk (acc.reverse ++ t) :: rest := by
  intro l
  induction l with
  | nil => intro acc; exact ⟨[], [], by simp [splitSemiAux]⟩
  | cons c cs ih =>
    intro acc
    by_cases hc : c = ';'
    · exact ⟨[], splitSemiAux cs [], by simp [splitSemiAux, hc]⟩
    · obtain ⟨t, rest, hres⟩ := ih (c :: acc)
      refine ⟨c :: t, rest, ?_⟩
      simp only [splitSemiAux, if_neg hc, hres, List.reverse_cons, List.append_assoc,
        List.singleton_append]

/-- Helper: the catalog query of `getTableIndexes` always splits into at
least one non-empty statement, whatever the table name. -/
theorem indexQuery_first_nonempty (table : String) :
    (splitOnSemicolon (indexQuerySQL table)).filter (fun q => q ≠ "") ≠ [] := by
  obtain ⟨tail, htail⟩ : ∃ tail, (indexQuerySQL table).data = 'W' :: tail := by
    simp only [indexQuerySQL, String.data_append]
    exact ⟨_, rfl⟩
  obtain ⟨t, rest, hres⟩ := splitSemiAux_head tail ['W']
  have hsplit : splitOnSemicolon (indexQuerySQL table) = String.mk ('W' :: t) :: rest := by
    rw [splitOnSemicolon, htail]
    rw [show splitSemiAux ('W' :: tail) [] = splitSemiAux tail ['W'] from by
      simp [splitSemiAux]]
    simpa using hres
  have hne : (String.mk ('W' :: t) ≠ "") := by
    intro hcon
    have := congrArg String.data hcon
    simp at this
  rw [hsplit]
  simp [List.filter_cons, hne]

/-- Helper: a statement on a missing or ended handle fails as not
connected. -/
theorem executeQuery_disconnected (o : Oracle) (st : ClientState) (args : RawArgs)
    (q : String)
    (hconn : st._connection = none ∨ ∃ c, st._connection = some c ∧ c.ended = true) :
    executeQuery o st args q = .error .notConnected := by
  rcases hconn with h | ⟨c, hc, he⟩
  · simp [executeQuery, h]
  · simp [executeQuery, hc, he]

/-- Helper: the statement loop on a torn-down context fails as not
connected as soon as one non-empty statement exists. -/
theorem execQueries_disconnected (o : Oracle) (st : ClientState) (args : RawArgs)
    (hconn : st._connection = none ∨ ∃ c, st._connection = some c ∧ c.ended = true) :
    ∀ qs : List String, qs.filter (fun q => q ≠ "") ≠ [] →
      execQueries o st args qs = .error .notConnected := by
  intro qs
  induction qs with
  | nil => intro h; simp at h
  | cons q rest ih =>
    intro h
    by_cases hq : q = ""
    · subst hq
      simp only [execQueries, if_pos rfl]
      apply ih
      simpa using h
    · simp only [execQueries, if_neg hq, executeQuery_disconnected o st args q hconn]

/-- C9: every Executor or Introspector operation invoked on a client
context that is not connected — no handle established, or the handle
destroyed — fails with the not-connected error rather than attempting an
implicit reconnect: `raw` (the Executor entry point every operation
funnels into), `getVariables` (a representative Introspector call) and
`getTableIndexes` all surface `Err.notConnected`, for every environment,
so no path re-establishes a connection. -/
theorem spec_C9_disconnected_fails :
    (∀ (o : Oracle) (st : ClientState) (sql : String) (args : RawArgs),
      st._connection = none →
      ((if args.split then splitOnSemicolon sql else [sql]).filter (fun q => q ≠ "")) ≠ [] →
      raw o st sql args = .error .notConnected) ∧
    (∀ (o : Oracle) (st : ClientState) (sql : String) (args : RawArgs),
      ((if args.split then splitOnSemicolon sql else [sql]).filter (fun q => q ≠ "")) ≠ [] →
      raw o (destroy st) sql args = .error .notConnected) ∧
    (∀ (o : Oracle) (st : ClientState), st._connection = none →
      getVariables o st = .error .notConnected) ∧
    (∀ (o : Oracle) (st : ClientState), st._connection ≠ none →
      getVariables o (destroy st) = .error .notConnected) ∧
    (∀ (o : Oracle) (st : ClientState) (schema table : String), st._connection = none →
      (getTableIndexes o st schema table).2 = .error .notConnected) := by
  have hdestroy : ∀ st : ClientState,
      (destroy st)._connection = none ∨
        ∃ c, (destroy st)._connection = some c ∧ c.ended = true := by
    intro st
    cases hsc : st._connection with
    | none => exact Or.inl (by simp [destroy, hsc])
    | some c => exact Or.inr ⟨{ ended := true }, by simp [destroy, hsc], rfl⟩
  refine ⟨?_, ?_, ?_, ?_, ?_⟩
  · intro o st sql args h hf
    have h2 := execQueries_disconnected o st args (Or.inl h) _ hf
    simp [raw, h2]
  · intro o st sql args hf
    have h2 := execQueries_disconnected o (destroy st) args (hdestroy st) _ hf
    simp [raw, h2]
  · intro o st h
    have h2 := execQueries_disconnected o st {} (Or.inl h) (splitOnSemicolon "SHOW ALL")
      (by decide)
    simp [getVariables, raw, h2]
  · intro o st _
    have h2 := execQueries_disconnected o (destroy st) {} (hdestroy st)
      (splitOnSemicolon "SHOW ALL") (by decide)
    simp [getVariables, raw, h2]
  · intro o st schema table h
    by_cases hs : schema = "public"
    · have h2 := execQueries_disconnected o st {} (Or.inl h)
        (splitOnSemicolon (indexQuerySQL table)) (indexQuery_first_nonempty table)
      simp [getTableIndexes, raw, hs, h2]
    · have hst' : ((use o st schema).1)._connection = none := by simp [use, h]
      have h2 := execQueries_disconnected o (use o st schema).1 {} (Or.inl hst')
        (splitOnSemicolon (indexQuerySQL table)) (indexQuery_first_nonempty table)
      simp [getTableIndexes, raw, hs, h2]

/-- C9 witness: a never-connected context and a destroyed live context,
each failing a representative operation with the not-connected error. -/
theorem spec_C9_disconnected_fails_witness :
    raw oSimple {} "SELECT 1" {} = .error .notConnected ∧
    getVariables oSimple (destroy stLive) = .error .notConnected :=
  ⟨spec_C9_disconnected_fails.1 oSimple {} "SELECT 1" {} rfl (by decide),
   spec_C9_disconnected_fails.2.2.2.1 oSimple stLive (by decide)⟩

/-- C3: with `split:true` (and the other options at their defaults), a text
that splits on `';'` into exactly two non-empty statements returns the
two-element sequence of their results in order; a text that yields exactly
one non-empty statement returns the single (non-sequence) result; and
every statement result carries its own measured duration. -/
theorem spec_C3_split_shape :
    (∀ (o : Oracle) (st : ClientState) (sql q1 q2 : String) (r1 r2 : QueryResult),
      splitOnSemicolon sql = [q1, q2] → q1 ≠ "" → q2 ≠ "" →
      executeQuery o st {} q1 = .ok r1 → executeQuery o st {} q2 = .ok r2 →
      raw o st sql {} = .ok (.many [r1, r2])) ∧
    (∀ (o : Oracle) (st : ClientState) (sql q : String) (r : QueryResult),
      splitOnSemicolon sql = [q] → q ≠ "" →
      executeQuery o st {} q = .ok r →
      raw o st sql {} = .ok (.single r)) ∧
    (∀ (o : Oracle) (st : ClientState) (args : RawArgs) (q : String) (r : QueryResult),
      executeQuery o st args q = .ok r →
      ∃ res, o.exec q = .ok res ∧ r.duration = res.duration) := by
  refine ⟨?_, ?_, ?_⟩
  · intro o st sql q1 q2 r1 r2 hs h1 h2 e1 e2
    simp [raw, hs, execQueries, h1, h2, e1, e2]
  · intro o st sql q r hs h e
    simp [raw, hs, execQueries, h, e]
  · intro o st args q r h
    simp only [executeQuery] at h
    split at h
    · simp at h
    · split at h
      · simp at h
      · split at h
        · simp at h
        · rename_i res heq
          refine ⟨res, heq, ?_⟩
          repeat' split at h
          all_goals try (simp only [Except.ok.injEq] at h)
          all_goals first
            | (exact congrArg QueryResult.duration h.symm)
            | simp_all

/-- C3 witness: the two scenarios of the spec evaluated against a concrete
environment, plus the duration of the single result. -/
theorem spec_C3_split_shape_witness :
    raw oSimple stLive "SELECT 1; SELECT 2" {} = .ok (.many [qrEmpty5, qrEmpty5]) ∧
    raw oSimple stLive "SELECT 1" {} = .ok (.single qrEmpty5) ∧
    (∃ res, oSimple.exec "SELECT 1" = .ok res ∧ qrEmpty5.duration = res.duration) :=
  ⟨spec_C3_split_shape.1 oSimple stLive "SELECT 1; SELECT 2" "SELECT 1" " SELECT 2"
      qrEmpty5 qrEmpty5 (by decide) (by decide) (by decide) (by decide) (by decide),
   spec_C3_split_shape.2.1 oSimple stLive "SELECT 1" "SELECT 1" qrEmpty5
      (by decide) (by decide) (by decide),
   spec_C3_split_shape.2.2 oSimple stLive {} "SELECT 1" qrEmpty5 (by decide)⟩

/-- Helper: without `details`, every successful statement result carries an
empty `keys` list. -/
theorem executeQuery_keys_details_false (o : Oracle) (st : ClientState) (args : RawArgs)
    (q : String) (r : QueryResult) (hd : args.details = false)
    (h : executeQuery o st args q = .ok r) : r.keys = some [] := by
  simp only [executeQuery, hd] at h
  repeat' split at h
  all_goals try (simp only [Except.ok.injEq] at h)
  all_goals first
    | (exact congrArg QueryResult.keys h.symm)
    | simp_all

/-- Helper: the statement loop without `details` yields only results with
an empty `keys` list. -/
theorem execQueries_keys_details_false (o : Oracle) (st : ClientState) (args : RawArgs)
    (hd : args.details = false) :
    ∀ (qs : List String) (rs : List QueryResult),
      execQueries o st args qs = .ok rs → ∀ r ∈ rs, r.keys = some [] := by
  intro qs
  induction qs with
  | nil =>
    intro rs h r hr
    simp only [execQueries, Except.ok.injEq] at h
    subst h
    simp at hr
  | cons q rest ih =>
    intro rs h r hr
    by_cases hq : q = ""
    · simp only [execQueries, if_pos hq] at h
      exact ih rs h r hr
    · simp only [execQueries, if_neg hq] at h
      split at h
      · simp at h
      · rename_i r1 heq1
        split at h
        · simp at h
        · rename_i rs1 heq2
          simp only [Except.ok.injEq] at h
          subst h
          rcases List.mem_cons.mp hr with h1 | h2
          · subst h1; exact executeQuery_keys_details_false o st args q r hd heq1
          · exact ih rs1 heq2 r h2

/-- C7 counterexample: a `raw` call without `details` still produces a
result that carries the `keys` field (as the empty list) — the claim that
the result carries no `keys` field when `details` is false is refuted. -/
theorem spec_C7_counterexample :
    raw oSimple stLive "SELECT 1" { details := false } = .ok (.single qrEmpty5) ∧
    qrEmpty5.keys ≠ none := by
  exact ⟨by decide, by decide⟩

/-- C7 (amended): the `keys` field is always present on every statement
result `raw` produces; when `details` is false it is the empty list — only
the foreign-key enrichment requested by `details:true` can populate it. -/
theorem spec_C7_amended :
    ∀ (o : Oracle) (st : ClientState) (sql : String) (args : RawArgs) (ret : RawReturn),
      args.details = false →
      raw o st sql args = .ok ret →
      (∀ r, ret = .single r → r.keys = some []) ∧
      (∀ rs, ret = .many rs → ∀ r ∈ rs, r.keys = some []) := by
  intro o st sql args ret hd hraw
  simp only [raw] at hraw
  split at hraw
  · simp at hraw
  · rename_i resultsArr heq
    have hall := execQueries_keys_details_false o st args hd _ resultsArr heq
    split at hraw
    · rename_i r1
      simp only [Except.ok.injEq] at hraw
      refine ⟨?_, ?_⟩
      · intro r2 hr2
        rw [← hraw] at hr2
        simp only [RawReturn.single.injEq] at hr2
        rw [← hr2]
        exact hall r1 (by simp)
      · intro rs hrs
        rw [← hraw] at hrs
        simp at hrs
    · simp only [Except.ok.injEq] at hraw
      refine ⟨?_, ?_⟩
      · intro r2 hr2
        rw [← hraw] at hr2
        simp at hr2
      · intro rs hrs
        rw [← hraw] at hrs
        simp only [RawReturn.many.injEq] at hrs
        rw [← hrs]
        exact hall

/-- C7 witness: the amended statement evaluated on a concrete `details:false`
call whose single result carries the empty `keys` list. -/
theorem spec_C7_amended_witness :
    qrEmpty5.keys = some [] :=
  (spec_C7_amended oSimple stLive "SELECT 1" { details := false } (.single qrEmpty5) rfl
    (by decide)).1 qrEmpty5 rfl

/-- C8: with `details:true`, when the originating schema/table of the
result fields cannot be resolved (here: the statement does not parse, so
every field's table is null, as for computed expressions), the per-pair
enrichment lookups are all skipped: the call succeeds whatever the catalog
lookups would do (they are arbitrary in the environment `o`), and the
fields simply carry no length and no key attribute. -/
theorem spec_C8_unresolved_enrichment_skipped :
    ∀ (o : Oracle) (st : ClientState) (c : Conn) (q : String) (res : DriverRes),
      st._connection = some c → c.ended = false →
      o.parseAst q = none → o.exec q = .ok res →
      executeQuery o st { details := true } q =
        .ok (mkQueryResult res.duration res.rows
          ((res.fields.getD []).map (remapField st { details := true } none o)) []) ∧
      (∀ f ∈ (res.fields.getD []).map (remapField st { details := true } none o),
        f.length = none ∧ f.key = none ∧ f.table = none) := by
  intro o st c q res hc he hp hx
  have htable : ∀ f ∈ (res.fields.getD []).map (remapField st { details := true } none o),
      f.length = none ∧ f.key = none ∧ f.table = none := by
    intro f hf
    rcases List.mem_map.mp hf with ⟨df, hdf, hfe⟩
    rw [← hfe]
    refine ⟨rfl, rfl, ?_⟩
    simp [remapField]
  refine ⟨?_, htable⟩
  have hskip : enrichDetails o
      ((res.fields.getD []).map (remapField st { details := true } none o)) =
      .ok ((res.fields.getD []).map (remapField st { details := true } none o), []) := by
    simp only [enrichDetails]
    apply enrichLoop_skip
    intro pr hpr
    rcases List.mem_map.mp (mem_of_mem_dedupPairs _ _ hpr) with ⟨f, hf, hfe⟩
    rw [← hfe]
    left
    have ht := (htable f hf).2.2
    simp [jsFalsy, jsTruthy, ht]
  simp only [executeQuery, hc, he, hp, hx]
  by_cases hemp : ((res.fields.getD []).map (remapField st { details := true } none o)).isEmpty
  · simp [hemp]
  · simp [hemp, hskip]

/-- C8 witness: a concrete unparseable statement with one
computed-expression field, against always-failing catalog lookups. -/
theorem spec_C8_unresolved_enrichment_skipped_witness :
    executeQuery oOneField stLive { details := true } "SELECT 1 + 1" =
      .ok (mkQueryResult resOneField.duration resOneField.rows
        ((resOneField.fields.getD []).map
          (remapField stLive { details := true } none oOneField)) []) ∧
    (∀ f ∈ (resOneField.fields.getD []).map
        (remapField stLive { details := true } none oOneField),
      f.length = none ∧ f.key = none ∧ f.table = none) :=
  spec_C8_unresolved_enrichment_skipped oOneField stLive { ended := false } "SELECT 1 + 1"
    resOneField rfl rfl rfl rfl

/-- C10: `getTableIndexes` with a non-`public` schema durably sets the
context's default schema to that schema via `use` — the returned context
(the one all subsequent statements see) carries the new `_schema`, and
nothing restores it — while a `public` schema leaves the context
untouched. -/
theorem spec_C10_schema_side_effect :
    ∀ (o : Oracle) (st : ClientState) (schema table : String),
      (schema ≠ "public" →
        (getTableIndexes o st schema table).1 = { st with _schema := some schema }) ∧
      (schema = "public" → (getTableIndexes o st schema table).1 = st) := by
  intro o st schema table
  constructor
  · intro h
    simp [getTableIndexes, use, h]
  · intro h
    simp [getTableIndexes, h]

/-- C10 witness: a non-`public` schema rewrites the default schema of a
live context, `public` leaves it alone. -/
theorem spec_C10_schema_side_effect_witness :
    (getTableIndexes oSimple stLive "other" "t").1 = { stLive with _schema := some "other" } ∧
    (getTableIndexes oSimple stLive "public" "t").1 = stLive :=
  ⟨(spec_C10_schema_side_effect oSimple stLive "other" "t").1 (by decide),
   (spec_C10_schema_side_effect oSimple stLive "public" "t").2 rfl⟩
